import Mathlib

/-!
Shallow embedding of `src/contracts/ElectionFactory.sol` (Solidity ^0.8.20):
the `ElectionFactory` contract and the `Election` contract it deploys.

Modelling conventions:
* `address` is modelled as `Nat` (an opaque, equality-comparable principal).
* `uint256` values are modelled as `Nat`.  Solidity 0.8 uses checked
  arithmetic: the constructor's window additions can genuinely overflow for
  attacker-chosen durations, so `mkElection` returns `none` when a computed
  bound would exceed `2^256 - 1`.  The `+= 1` counters (`electionCount`,
  `candidatesCount`, `voteCount`) are modelled as plain `Nat` increments:
  a checked `+= 1` can only revert after `2^256 - 1` prior successful
  transactions, which is not reachable on chain and is not modelled.
* A Solidity `mapping` is a total function returning the zero value of its
  codomain (`false`, or the all-zero `Candidate` record).
* Each external function is a Lean function `Election → args → Except Err Election`:
  `.error` models `revert`, and a reverted call leaves the state unchanged
  (`applyOp`).  Every `require(cond, msg)` becomes a conditional returning the
  error kind that the specification assigns to that message:
  "Only admin" ↦ `AccessDenied`, "Invalid phase" / "Already started" /
  "Must be in registration" / "Must be in voting" ↦ `InvalidPhase`,
  "Name required" ↦ `InvalidInput`, "Registration window closed" /
  "Voting window closed" ↦ `WindowClosed`, "Already registered" ↦
  `AlreadyRegistered`, "Not registered voter" ↦ `NotRegistered`,
  "Already voted" ↦ `AlreadyVoted`, "Invalid candidate" ↦ `InvalidCandidate`,
  "No candidates" ↦ `NoCandidates`.
  Solidity modifiers run in declaration order, so `onlyAdmin` is checked
  before `inPhase(...)`, and the `require`s of a body run after the modifiers,
  in source order.
-/

namespace EVoting

/-- Caller identity (Solidity `address` / the spec's `Principal`). -/
abbrev Addr := Nat

/-- Largest representable `uint256`. -/
def UINT_MAX : Nat := 2 ^ 256 - 1

/-- The `Phase` enum of the `Election` contract. -/
inductive Phase where
  | Created
  | Registration
  | Voting
  | Ended
deriving DecidableEq

/-- The `Candidate` struct: `{id, name, voteCount}`. -/
structure Candidate where
  id : Nat
  name : String
  voteCount : Nat
deriving DecidableEq

/-- Zero value of the `Candidate` struct, returned by an unset mapping slot. -/
def defaultCandidate : Candidate := ⟨0, "", 0⟩

/-- Error kinds of the specification, one per distinct `require` message
(see the header comment for the message ↦ kind table). -/
inductive Err where
  | AccessDenied
  | InvalidPhase
  | InvalidInput
  | WindowClosed
  | AlreadyRegistered
  | AlreadyVoted
  | InvalidCandidate
  | NoCandidates
  | NotRegistered
deriving DecidableEq

/-- Storage of one `Election` contract. -/
structure Election where
  admin : Addr
  title : String
  description : String
  phase : Phase
  registrationStart : Nat
  registrationEnd : Nat
  votingStart : Nat
  votingEnd : Nat
  candidatesCount : Nat
  candidates : Nat → Candidate
  isRegisteredVoter : Addr → Bool
  hasVoted : Addr → Bool

/-- Mapping store for the candidates mapping. -/
def setMapC (m : Nat → Candidate) (k : Nat) (v : Candidate) : Nat → Candidate :=
  fun x => if x = k then v else m x

/-- Mapping store for the two boolean voter mappings. -/
def setMapB (m : Addr → Bool) (k : Addr) (v : Bool) : Addr → Bool :=
  fun x => if x = k then v else m x

/-- The `Election` constructor.  Sets `phase = Created`, copies the admin and
texts, and computes the two windows from `block.timestamp` (`now`):
`registrationStart = now`, `registrationEnd = registrationStart + regDur`,
`votingStart = registrationEnd`, `votingEnd = votingStart + votDur`.
Solidity 0.8 checked addition reverts on overflow, hence the guard. -/
def mkElection (admin : Addr) (title description : String)
    (registrationDuration votingDuration now : Nat) : Option Election :=
  if now + registrationDuration ≤ UINT_MAX ∧
      now + registrationDuration + votingDuration ≤ UINT_MAX then
    some { admin := admin
           title := title
           description := description
           phase := Phase.Created
           registrationStart := now
           registrationEnd := now + registrationDuration
           votingStart := now + registrationDuration
           votingEnd := now + registrationDuration + votingDuration
           candidatesCount := 0
           candidates := fun _ => defaultCandidate
           isRegisteredVoter := fun _ => false
           hasVoted := fun _ => false }
  else none

/-- `addCandidate`: `onlyAdmin`, `inPhase(Created)`, then
`require(bytes(_name).length > 0, "Name required")`; assigns id
`candidatesCount + 1` with `voteCount = 0`. -/
def Election.addCandidate (e : Election) (caller : Addr) (name : String) :
    Except Err Election :=
  if caller = e.admin then
    if e.phase = Phase.Created then
      if name = "" then Except.error Err.InvalidInput
      else Except.ok
        { e with
          candidatesCount := e.candidatesCount + 1
          candidates := setMapC e.candidates (e.candidatesCount + 1)
            ⟨e.candidatesCount + 1, name, 0⟩ }
    else Except.error Err.InvalidPhase
  else Except.error Err.AccessDenied

/-- `startRegistration`: `onlyAdmin`, then `require(phase == Created)`. -/
def Election.startRegistration (e : Election) (caller : Addr) :
    Except Err Election :=
  if caller = e.admin then
    if e.phase = Phase.Created then
      Except.ok { e with phase := Phase.Registration }
    else Except.error Err.InvalidPhase
  else Except.error Err.AccessDenied

/-- `startVoting`: `onlyAdmin`, `require(phase == Registration)`,
`require(candidatesCount > 0)`.  No time-window check (removed in source). -/
def Election.startVoting (e : Election) (caller : Addr) :
    Except Err Election :=
  if caller = e.admin then
    if e.phase = Phase.Registration then
      if 0 < e.candidatesCount then
        Except.ok { e with phase := Phase.Voting }
      else Except.error Err.NoCandidates
    else Except.error Err.InvalidPhase
  else Except.error Err.AccessDenied

/-- `endElection`: `onlyAdmin`, `require(phase == Voting)`.
No time-window check (removed in source). -/
def Election.endElection (e : Election) (caller : Addr) :
    Except Err Election :=
  if caller = e.admin then
    if e.phase = Phase.Voting then
      Except.ok { e with phase := Phase.Ended }
    else Except.error Err.InvalidPhase
  else Except.error Err.AccessDenied

/-- `registerVoter`: `inPhase(Registration)`, window check
`registrationStart ≤ now ≤ registrationEnd`, then
`require(!isRegisteredVoter[msg.sender])`; sets the flag. -/
def Election.registerVoter (e : Election) (caller : Addr) (now : Nat) :
    Except Err Election :=
  if e.phase = Phase.Registration then
    if e.registrationStart ≤ now ∧ now ≤ e.registrationEnd then
      if e.isRegisteredVoter caller = true then
        Except.error Err.AlreadyRegistered
      else Except.ok { e with isRegisteredVoter := setMapB e.isRegisteredVoter caller true }
    else Except.error Err.WindowClosed
  else Except.error Err.InvalidPhase

/-- `vote`: `inPhase(Voting)`, window check `votingStart ≤ now ≤ votingEnd`,
`require(isRegisteredVoter[msg.sender])`, `require(!hasVoted[msg.sender])`,
`require(0 < _candidateId && _candidateId <= candidatesCount)`; then sets
`hasVoted[msg.sender] = true` and does `candidates[_candidateId].voteCount += 1`. -/
def Election.vote (e : Election) (caller : Addr) (candidateId now : Nat) :
    Except Err Election :=
  if e.phase = Phase.Voting then
    if e.votingStart ≤ now ∧ now ≤ e.votingEnd then
      if e.isRegisteredVoter caller = true then
        if e.hasVoted caller = true then Except.error Err.AlreadyVoted
        else
          if 0 < candidateId ∧ candidateId ≤ e.candidatesCount then
            Except.ok
              { e with
                hasVoted := setMapB e.hasVoted caller true
                candidates := setMapC e.candidates candidateId
                  { e.candidates candidateId with
                    voteCount := (e.candidates candidateId).voteCount + 1 } }
          else Except.error Err.InvalidCandidate
      else Except.error Err.NotRegistered
    else Except.error Err.WindowClosed
  else Except.error Err.InvalidPhase

/-- `getCandidate`: returns `candidates[_id]`.  A `view` function with no
`require`: it never reverts, so it is always `Except.ok`.  The `Except`
wrapper matches the fallible operation surface of the specification. -/
def Election.getCandidate (e : Election) (id : Nat) : Except Err Candidate :=
  Except.ok (e.candidates id)

/-- `getAllCandidates`: the loop `for i in 1..candidatesCount, list[i-1] = candidates[i]`. -/
def Election.getAllCandidates (e : Election) : List Candidate :=
  (List.range e.candidatesCount).map (fun i => e.candidates (i + 1))

/-- One external call on an `Election`, with its caller and, for the
time-gated calls, the `block.timestamp` it executes at. -/
inductive Op where
  | addCandidate (caller : Addr) (name : String)
  | startRegistration (caller : Addr)
  | startVoting (caller : Addr)
  | endElection (caller : Addr)
  | registerVoter (caller : Addr) (now : Nat)
  | vote (caller : Addr) (candidateId : Nat) (now : Nat)

/-- Dispatch one call. -/
def step (e : Election) : Op → Except Err Election
  | Op.addCandidate c n => e.addCandidate c n
  | Op.startRegistration c => e.startRegistration c
  | Op.startVoting c => e.startVoting c
  | Op.endElection c => e.endElection c
  | Op.registerVoter c now => e.registerVoter c now
  | Op.vote c cid now => e.vote c cid now

/-- Effect of one transaction: a revert leaves the storage unchanged. -/
def applyOp (e : Election) (op : Op) : Election :=
  match step e op with
  | Except.ok e' => e'
  | Except.error _ => e

/-- Run a sequence of transactions. -/
def run (e : Election) : List Op → Election
  | [] => e
  | op :: ops => run (applyOp e op) ops

/-- The `(caller, candidateId)` pairs of the successful `vote` calls of a
transaction sequence, in execution order. -/
def voteLog (e : Election) : List Op → List (Addr × Nat)
  | [] => []
  | op :: ops =>
    match step e op with
    | Except.ok e' =>
      (match op with
       | Op.vote c cid _ => [(c, cid)]
       | _ => []) ++ voteLog e' ops
    | Except.error _ => voteLog e ops

/-- Election states reachable from a constructor call by successful calls.
Reverted calls leave the state unchanged, so they need no case. -/
inductive Reachable : Election → Prop where
  | init (a : Addr) (t d : String) (rd vd now : Nat) (e : Election) :
      mkElection a t d rd vd now = some e → Reachable e
  | next (e : Election) (op : Op) (e' : Election) :
      Reachable e → step e op = Except.ok e' → Reachable e'

/-- Storage of the `ElectionFactory` contract; the `elections` mapping holds
the deployed contract's state where Solidity holds its address. -/
structure Factory where
  electionCount : Nat
  elections : Nat → Option Election

/-- The factory before any `createElection` call. -/
def initFactory : Factory := { electionCount := 0, elections := fun _ => none }

/-- `createElection`: deploys a new `Election` (whose constructor may revert,
reverting the whole call), then `electionCount += 1` and stores it at the new
id.  Returns the new factory state, the id and the election. -/
def createElection (f : Factory) (sender : Addr) (title description : String)
    (registrationDuration votingDuration now : Nat) :
    Option (Factory × Nat × Election) :=
  (mkElection sender title description registrationDuration votingDuration now).map
    fun e =>
      ({ electionCount := f.electionCount + 1
         elections := fun i => if i = f.electionCount + 1 then some e else f.elections i },
       f.electionCount + 1, e)

/-- Concrete election used in witnesses: the state the constructor builds for
`admin = 0`, durations 100 and 200, at `block.timestamp = 0` (Scenario A of
the specification: windows `[0,100]` and `[100,300]`). -/
def initE : Election :=
  { admin := 0
    title := "t"
    description := "d"
    phase := Phase.Created
    registrationStart := 0
    registrationEnd := 100
    votingStart := 100
    votingEnd := 300
    candidatesCount := 0
    candidates := fun _ => defaultCandidate
    isRegisteredVoter := fun _ => false
    hasVoted := fun _ => false }

/-- Concrete transaction sequence used in witnesses: the admin adds two
candidates, opens registration, voters 1 and 2 register at times 50 and 60,
the admin opens voting, and voter 1 votes for candidate 1 at time 150. -/
def demoOps : List Op :=
  [Op.addCandidate 0 "Alice", Op.addCandidate 0 "Bob",
   Op.startRegistration 0, Op.registerVoter 1 50, Op.registerVoter 2 60,
   Op.startVoting 0, Op.vote 1 1 150]

/-- The election state after `demoOps`. -/
def demoE : Election := run initE demoOps

/-! ### Success inversions: what a non-reverting call requires and produces -/

/-- `addCandidate` succeeds exactly for the admin, in `Created`, with a
non-empty name, and then appends candidate `candidatesCount + 1`. -/
theorem addCandidate_ok_iff (e : Election) (c : Addr) (n : String) (e' : Election) :
    e.addCandidate c n = Except.ok e' ↔
      c = e.admin ∧ e.phase = Phase.Created ∧ n ≠ "" ∧
      e' = { e with
             candidatesCount := e.candidatesCount + 1
             candidates := setMapC e.candidates (e.candidatesCount + 1)
               ⟨e.candidatesCount + 1, n, 0⟩ } := by
  unfold Election.addCandidate
  split_ifs with h1 h2 h3 <;> simp_all
  exact eq_comm

/-- `startRegistration` succeeds exactly for the admin in `Created`. -/
theorem startRegistration_ok_iff (e : Election) (c : Addr) (e' : Election) :
    e.startRegistration c = Except.ok e' ↔
      c = e.admin ∧ e.phase = Phase.Created ∧
      e' = { e with phase := Phase.Registration } := by
  unfold Election.startRegistration
  split_ifs with h1 h2 <;> simp_all
  exact eq_comm

/-- `startVoting` succeeds exactly for the admin in `Registration` with at
least one candidate. -/
theorem startVoting_ok_iff (e : Election) (c : Addr) (e' : Election) :
    e.startVoting c = Except.ok e' ↔
      c = e.admin ∧ e.phase = Phase.Registration ∧ 0 < e.candidatesCount ∧
      e' = { e with phase := Phase.Voting } := by
  unfold Election.startVoting
  split_ifs with h1 h2 h3 <;> simp_all
  exact eq_comm

/-- `endElection` succeeds exactly for the admin in `Voting`. -/
theorem endElection_ok_iff (e : Election) (c : Addr) (e' : Election) :
    e.endElection c = Except.ok e' ↔
      c = e.admin ∧ e.phase = Phase.Voting ∧
      e' = { e with phase := Phase.Ended } := by
  unfold Election.endElection
  split_ifs with h1 h2 <;> simp_all
  exact eq_comm

/-- `registerVoter` succeeds exactly in `Registration`, inside the
registration window, for a caller not yet registered. -/
theorem registerVoter_ok_iff (e : Election) (c : Addr) (now : Nat) (e' : Election) :
    e.registerVoter c now = Except.ok e' ↔
      e.phase = Phase.Registration ∧
      e.registrationStart ≤ now ∧ now ≤ e.registrationEnd ∧
      e.isRegisteredVoter c = false ∧
      e' = { e with isRegisteredVoter := setMapB e.isRegisteredVoter c true } := by
  unfold Election.registerVoter
  split_ifs with h1 h2 h3 <;> simp_all
  exact eq_comm

/-- `vote` succeeds exactly in `Voting`, inside the voting window, for a
registered caller who has not voted, on a candidate id in range. -/
theorem vote_ok_iff (e : Election) (c : Addr) (cid now : Nat) (e' : Election) :
    e.vote c cid now = Except.ok e' ↔
      e.phase = Phase.Voting ∧
      e.votingStart ≤ now ∧ now ≤ e.votingEnd ∧
      e.isRegisteredVoter c = true ∧
      e.hasVoted c = false ∧
      0 < cid ∧ cid ≤ e.candidatesCount ∧
      e' = { e with
             hasVoted := setMapB e.hasVoted c true
             candidates := setMapC e.candidates cid
               { e.candidates cid with
                 voteCount := (e.candidates cid).voteCount + 1 } } := by
  unfold Election.vote
  split_ifs with h1 h2 h3 h4 h5 <;> simp_all
  exact eq_comm

/-! ### Frame, monotonicity, and reachability helpers -/

/-- Position of a phase in the lifecycle `Created → Registration → Voting → Ended`. -/
def phaseIdx : Phase → Nat
  | Phase.Created => 0
  | Phase.Registration => 1
  | Phase.Voting => 2
  | Phase.Ended => 3

/-- No call writes the admin, the texts, or the four window bounds. -/
theorem step_frame (e : Election) (op : Op) (e' : Election)
    (h : step e op = Except.ok e') :
    e'.admin = e.admin ∧ e'.title = e.title ∧ e'.description = e.description ∧
    e'.registrationStart = e.registrationStart ∧
    e'.registrationEnd = e.registrationEnd ∧
    e'.votingStart = e.votingStart ∧ e'.votingEnd = e.votingEnd := by
  cases op <;> simp only [step] at h
  case addCandidate c n =>
    rw [addCandidate_ok_iff] at h; obtain ⟨-, -, -, rfl⟩ := h; exact ⟨rfl, rfl, rfl, rfl, rfl, rfl, rfl⟩
  case startRegistration c =>
    rw [startRegistration_ok_iff] at h; obtain ⟨-, -, rfl⟩ := h; exact ⟨rfl, rfl, rfl, rfl, rfl, rfl, rfl⟩
  case startVoting c =>
    rw [startVoting_ok_iff] at h; obtain ⟨-, -, -, rfl⟩ := h; exact ⟨rfl, rfl, rfl, rfl, rfl, rfl, rfl⟩
  case endElection c =>
    rw [endElection_ok_iff] at h; obtain ⟨-, -, rfl⟩ := h; exact ⟨rfl, rfl, rfl, rfl, rfl, rfl, rfl⟩
  case registerVoter c now =>
    rw [registerVoter_ok_iff] at h; obtain ⟨-, -, -, -, rfl⟩ := h; exact ⟨rfl, rfl, rfl, rfl, rfl, rfl, rfl⟩
  case vote c cid now =>
    rw [vote_ok_iff] at h; obtain ⟨-, -, -, -, -, -, -, rfl⟩ := h; exact ⟨rfl, rfl, rfl, rfl, rfl, rfl, rfl⟩

/-- Each successful call moves the phase forward by zero or one position,
never decreases the candidate count, and never resets the two one-way voter
flags. -/
theorem step_mono (e : Election) (op : Op) (e' : Election)
    (h : step e op = Except.ok e') :
    phaseIdx e.phase ≤ phaseIdx e'.phase ∧
    phaseIdx e'.phase ≤ phaseIdx e.phase + 1 ∧
    e.candidatesCount ≤ e'.candidatesCount ∧
    (∀ a, e.isRegisteredVoter a = true → e'.isRegisteredVoter a = true) ∧
    (∀ a, e.hasVoted a = true → e'.hasVoted a = true) := by
  cases op <;> simp only [step] at h
  case addCandidate c n =>
    rw [addCandidate_ok_iff] at h; obtain ⟨-, -, -, rfl⟩ := h
    exact ⟨le_refl _, Nat.le_succ _, Nat.le_succ _, fun a ha => ha, fun a ha => ha⟩
  case startRegistration c =>
    rw [startRegistration_ok_iff] at h; obtain ⟨-, h2, rfl⟩ := h
    refine ⟨?_, ?_, le_refl _, fun a ha => ha, fun a ha => ha⟩ <;> simp [phaseIdx, h2]
  case startVoting c =>
    rw [startVoting_ok_iff] at h; obtain ⟨-, h2, -, rfl⟩ := h
    refine ⟨?_, ?_, le_refl _, fun a ha => ha, fun a ha => ha⟩ <;> simp [phaseIdx, h2]
  case endElection c =>
    rw [endElection_ok_iff] at h; obtain ⟨-, h2, rfl⟩ := h
    refine ⟨?_, ?_, le_refl _, fun a ha => ha, fun a ha => ha⟩ <;> simp [phaseIdx, h2]
  case registerVoter c now =>
    rw [registerVoter_ok_iff] at h; obtain ⟨-, -, -, -, rfl⟩ := h
    refine ⟨le_refl _, Nat.le_succ _, le_refl _, fun a ha => ?_, fun a ha => ha⟩
    simp only [setMapB]
    split <;> simp [ha]
  case vote c cid now =>
    rw [vote_ok_iff] at h; obtain ⟨-, -, -, -, -, -, -, rfl⟩ := h
    refine ⟨le_refl _, Nat.le_succ _, le_refl _, fun a ha => ha, fun a ha => ?_⟩
    simp only [setMapB]
    split <;> simp [ha]

/-- Lift a step-preserved predicate along a transaction sequence
(reverted transactions leave the state unchanged). -/
theorem run_preserve (P : Election → Prop)
    (hstep : ∀ e op e', step e op = Except.ok e' → P e → P e')
    (e : Election) (ops : List Op) (h : P e) : P (run e ops) := by
  induction ops generalizing e with
  | nil => exact h
  | cons op ops ih =>
    simp only [run]
    apply ih
    unfold applyOp
    cases hs : step e op with
    | ok e' => exact hstep e op e' hs h
    | error err => exact h

/-- The phase position never decreases along any transaction sequence. -/
theorem run_phase_mono (e : Election) (ops : List Op) :
    phaseIdx e.phase ≤ phaseIdx (run e ops).phase :=
  run_preserve (fun x => phaseIdx e.phase ≤ phaseIdx x.phase)
    (fun e1 op e2 hs h1 => le_trans h1 (step_mono e1 op e2 hs).1)
    e ops (le_refl _)

/-- The candidate count never decreases along any transaction sequence. -/
theorem run_count_mono (e : Election) (ops : List Op) :
    e.candidatesCount ≤ (run e ops).candidatesCount :=
  run_preserve (fun x => e.candidatesCount ≤ x.candidatesCount)
    (fun e1 op e2 hs h1 => le_trans h1 (step_mono e1 op e2 hs).2.2.1)
    e ops (le_refl _)

/-- A set `isRegisteredVoter` flag stays set along any transaction sequence. -/
theorem run_registered_mono (e : Election) (ops : List Op) (a : Addr)
    (h : e.isRegisteredVoter a = true) : (run e ops).isRegisteredVoter a = true :=
  run_preserve (fun x => x.isRegisteredVoter a = true)
    (fun e1 op e2 hs h1 => (step_mono e1 op e2 hs).2.2.2.1 a h1) e ops h

/-- A set `hasVoted` flag stays set along any transaction sequence. -/
theorem run_voted_mono (e : Election) (ops : List Op) (a : Addr)
    (h : e.hasVoted a = true) : (run e ops).hasVoted a = true :=
  run_preserve (fun x => x.hasVoted a = true)
    (fun e1 op e2 hs h1 => (step_mono e1 op e2 hs).2.2.2.2 a h1) e ops h

/-- Running transactions from a reachable state stays reachable. -/
theorem reachable_run (e : Election) (ops : List Op) (h : Reachable e) :
    Reachable (run e ops) :=
  run_preserve Reachable (fun e1 op e2 hs h1 => Reachable.next e1 op e2 h1 hs)
    e ops h

/-- Structural invariant of reachable elections: stored candidates in range
carry their own index as `id`, slots outside `1..candidatesCount` still hold
the zero record, and every voter who has voted is registered. -/
def GoodState (e : Election) : Prop :=
  (∀ i, 1 ≤ i → i ≤ e.candidatesCount → (e.candidates i).id = i) ∧
  (∀ i, i = 0 ∨ e.candidatesCount < i → e.candidates i = defaultCandidate) ∧
  (∀ a, e.hasVoted a = true → e.isRegisteredVoter a = true)

/-- The constructor establishes `GoodState`. -/
theorem mkElection_good (a : Addr) (t d : String) (rd vd now : Nat)
    (e : Election) (h : mkElection a t d rd vd now = some e) : GoodState e := by
  unfold mkElection at h
  split_ifs at h
  cases h
  refine ⟨fun i h1 h2 => absurd (le_trans h1 h2) (by simp), fun i _ => rfl, fun a ha => ?_⟩
  simp at ha

/-- Every successful call preserves `GoodState`. -/
theorem step_good (e : Election) (op : Op) (e' : Election)
    (h : step e op = Except.ok e') (hg : GoodState e) : GoodState e' := by
  obtain ⟨g1, g2, g3⟩ := hg
  cases op <;> simp only [step] at h
  case addCandidate c n =>
    rw [addCandidate_ok_iff] at h; obtain ⟨-, -, -, rfl⟩ := h
    refine ⟨fun i h1 h2 => ?_, fun i hi => ?_, g3⟩
    · have h2' : i ≤ e.candidatesCount + 1 := h2
      simp only [setMapC]
      split
      case isTrue heq => simp [heq]
      case isFalse heq => exact g1 i h1 (by omega)
    · have hi' : i = 0 ∨ e.candidatesCount + 1 < i := hi
      simp only [setMapC]
      rw [if_neg (by omega)]
      exact g2 i (by omega)
  case startRegistration c =>
    rw [startRegistration_ok_iff] at h; obtain ⟨-, -, rfl⟩ := h
    exact ⟨g1, g2, g3⟩
  case startVoting c =>
    rw [startVoting_ok_iff] at h; obtain ⟨-, -, -, rfl⟩ := h
    exact ⟨g1, g2, g3⟩
  case endElection c =>
    rw [endElection_ok_iff] at h; obtain ⟨-, -, rfl⟩ := h
    exact ⟨g1, g2, g3⟩
  case registerVoter c now =>
    rw [registerVoter_ok_iff] at h; obtain ⟨-, -, -, -, rfl⟩ := h
    refine ⟨g1, g2, fun a ha => ?_⟩
    simp only [setMapB]
    split
    · rfl
    · exact g3 a ha
  case vote c cid now =>
    rw [vote_ok_iff] at h; obtain ⟨-, -, -, hreg, -, hc1, hc2, rfl⟩ := h
    refine ⟨fun i h1 h2 => ?_, fun i hi => ?_, fun a ha => ?_⟩
    · have h2' : i ≤ e.candidatesCount := h2
      simp only [setMapC]
      split
      case isTrue heq => simpa [heq] using g1 cid hc1 hc2
      case isFalse heq => exact g1 i h1 h2'
    · have hi' : i = 0 ∨ e.candidatesCount < i := hi
      simp only [setMapC]
      rw [if_neg (by omega)]
      exact g2 i hi'
    · simp only [setMapB] at ha
      by_cases hac : a = c
      · rw [hac]; exact hreg
      · rw [if_neg hac] at ha; exact g3 a ha

/-- Every reachable election satisfies `GoodState`. -/
theorem reachable_good (e : Election) (h : Reachable e) : GoodState e := by
  induction h with
  | init a t d rd vd now e hmk => exact mkElection_good a t d rd vd now e hmk
  | next e op e' hr hs ih => exact step_good e op e' hs ih

/-! ### Claim theorems -/

/-- C1: `vote` succeeds exactly when the phase is `Voting`, `now` lies in the
closed interval `[votingStart, votingEnd]`, the caller is registered, the
caller has not voted, and the candidate id is in `[1, candidatesCount]`; the
failures are `InvalidPhase`, `WindowClosed`, `NotRegistered`, `AlreadyVoted`
and `InvalidCandidate`, checked in that order; on success the caller's
`hasVoted` flag becomes `true` and exactly the chosen candidate's `voteCount`
grows by exactly 1 (all other slots, flags and fields unchanged), and a
failed call leaves the state unchanged, so both effects apply or neither. -/
theorem vote_spec (e : Election) (caller : Addr) (cid now : Nat) :
    ((∃ e', e.vote caller cid now = Except.ok e') ↔
      (e.phase = Phase.Voting ∧ e.votingStart ≤ now ∧ now ≤ e.votingEnd ∧
       e.isRegisteredVoter caller = true ∧ e.hasVoted caller = false ∧
       1 ≤ cid ∧ cid ≤ e.candidatesCount)) ∧
    (e.phase ≠ Phase.Voting →
      e.vote caller cid now = Except.error Err.InvalidPhase) ∧
    (e.phase = Phase.Voting → ¬(e.votingStart ≤ now ∧ now ≤ e.votingEnd) →
      e.vote caller cid now = Except.error Err.WindowClosed) ∧
    (e.phase = Phase.Voting → e.votingStart ≤ now → now ≤ e.votingEnd →
      e.isRegisteredVoter caller = false →
      e.vote caller cid now = Except.error Err.NotRegistered) ∧
    (e.phase = Phase.Voting → e.votingStart ≤ now → now ≤ e.votingEnd →
      e.isRegisteredVoter caller = true → e.hasVoted caller = true →
      e.vote caller cid now = Except.error Err.AlreadyVoted) ∧
    (e.phase = Phase.Voting → e.votingStart ≤ now → now ≤ e.votingEnd →
      e.isRegisteredVoter caller = true → e.hasVoted caller = false →
      ¬(1 ≤ cid ∧ cid ≤ e.candidatesCount) →
      e.vote caller cid now = Except.error Err.InvalidCandidate) ∧
    (∀ e', e.vote caller cid now = Except.ok e' →
      e'.hasVoted caller = true ∧
      (∀ a, a ≠ caller → e'.hasVoted a = e.hasVoted a) ∧
      (e'.candidates cid).voteCount = (e.candidates cid).voteCount + 1 ∧
      (e'.candidates cid).id = (e.candidates cid).id ∧
      (e'.candidates cid).name = (e.candidates cid).name ∧
      (∀ j, j ≠ cid → e'.candidates j = e.candidates j) ∧
      e'.isRegisteredVoter = e.isRegisteredVoter ∧
      e'.phase = e.phase ∧ e'.candidatesCount = e.candidatesCount) ∧
    (∀ err, e.vote caller cid now = Except.error err →
      applyOp e (Op.vote caller cid now) = e) := by
  refine ⟨⟨fun hex => ?_, fun hc => ?_⟩, fun h1 => ?_, fun h1 h2 => ?_,
    fun h1 h2 h3 h4 => ?_, fun h1 h2 h3 h4 h5 => ?_,
    fun h1 h2 h3 h4 h5 h6 => ?_, fun e' he' => ?_, fun err herr => ?_⟩
  · obtain ⟨e', he⟩ := hex
    rw [vote_ok_iff] at he
    exact ⟨he.1, he.2.1, he.2.2.1, he.2.2.2.1, he.2.2.2.2.1,
      he.2.2.2.2.2.1, he.2.2.2.2.2.2.1⟩
  · exact ⟨_, (vote_ok_iff e caller cid now _).mpr
      ⟨hc.1, hc.2.1, hc.2.2.1, hc.2.2.2.1, hc.2.2.2.2.1,
       hc.2.2.2.2.2.1, hc.2.2.2.2.2.2, rfl⟩⟩
  · unfold Election.vote; rw [if_neg h1]
  · unfold Election.vote; rw [if_pos h1, if_neg h2]
  · unfold Election.vote; rw [if_pos h1, if_pos ⟨h2, h3⟩, if_neg (by simp [h4])]
  · unfold Election.vote; rw [if_pos h1, if_pos ⟨h2, h3⟩, if_pos h4, if_pos h5]
  · unfold Election.vote
    rw [if_pos h1, if_pos ⟨h2, h3⟩, if_pos h4, if_neg (by simp [h5]),
      if_neg (fun hc => h6 ⟨hc.1, hc.2⟩)]
  · rw [vote_ok_iff] at he'
    obtain ⟨-, -, -, -, -, -, -, rfl⟩ := he'
    refine ⟨by simp [setMapB], fun a ha => by simp [setMapB, ha], ?_, ?_, ?_,
      fun j hj => by simp [setMapC, hj], rfl, rfl, rfl⟩ <;> simp [setMapC]
  · unfold applyOp
    simp only [step]
    rw [herr]

/-- C1 witness: in the concrete state `demoE`, unregistered voter 2 is
rejected with `NotRegistered`, voter 1 voting a second time gets
`AlreadyVoted`, and registered voter 2 voting for the unknown candidate 9
gets `InvalidCandidate`. -/
theorem vote_spec_witness :
    demoE.vote 3 1 150 = Except.error Err.NotRegistered ∧
    demoE.vote 1 1 150 = Except.error Err.AlreadyVoted ∧
    demoE.vote 2 9 150 = Except.error Err.InvalidCandidate :=
  ⟨(vote_spec demoE 3 1 150).2.2.2.1 (by decide) (by decide) (by decide) (by decide),
   (vote_spec demoE 1 1 150).2.2.2.2.1 (by decide) (by decide) (by decide)
     (by decide) (by decide),
   (vote_spec demoE 2 9 150).2.2.2.2.2.1 (by decide) (by decide) (by decide)
     (by decide) (by decide) (by decide)⟩

/-- C5: a successful creation at time `now` with durations `rd` and `vd`
yields phase `Created`, `admin` equal to the creator, and the windows
`registrationStart = now`, `registrationEnd = now + rd`,
`votingStart = registrationEnd`, `votingEnd = votingStart + vd`. -/
theorem mkElection_spec (a : Addr) (t d : String) (rd vd now : Nat)
    (e : Election) (h : mkElection a t d rd vd now = some e) :
    e.phase = Phase.Created ∧ e.admin = a ∧
    e.registrationStart = now ∧ e.registrationEnd = now + rd ∧
    e.votingStart = e.registrationEnd ∧ e.votingEnd = e.votingStart + vd := by
  unfold mkElection at h
  split_ifs at h
  cases h
  exact ⟨rfl, rfl, rfl, rfl, rfl, rfl⟩

/-- C5 witness, Scenario A: creating with durations 100 and 200 at time 0
yields the windows `[0, 100]` and `[100, 300]`. -/
theorem mkElection_spec_witness :
    mkElection 0 "t" "d" 100 200 0 = some initE ∧
    initE.phase = Phase.Created ∧ initE.admin = 0 ∧
    initE.registrationStart = 0 ∧ initE.registrationEnd = 0 + 100 ∧
    initE.votingStart = initE.registrationEnd ∧
    initE.votingEnd = initE.votingStart + 200 :=
  ⟨rfl, mkElection_spec 0 "t" "d" 100 200 0 initE rfl⟩

/-- C6: for the admin, `startVoting` succeeds exactly when the phase is
`Registration` and the candidate count is positive, failing `InvalidPhase`
outside `Registration` and `NoCandidates` on a zero count; it consults no
clock at all (the call takes no timestamp), so the admin may advance to
`Voting` before `registrationEnd`. -/
theorem startVoting_spec (e : Election) (caller : Addr) (h : caller = e.admin) :
    ((∃ e', e.startVoting caller = Except.ok e') ↔
      (e.phase = Phase.Registration ∧ 0 < e.candidatesCount)) ∧
    (e.phase ≠ Phase.Registration →
      e.startVoting caller = Except.error Err.InvalidPhase) ∧
    (e.phase = Phase.Registration → e.candidatesCount = 0 →
      e.startVoting caller = Except.error Err.NoCandidates) ∧
    (∀ e', e.startVoting caller = Except.ok e' →
      e' = { e with phase := Phase.Voting }) := by
  refine ⟨⟨fun hex => ?_, fun hc => ?_⟩, fun h1 => ?_, fun h1 h2 => ?_,
    fun e' he' => ?_⟩
  · obtain ⟨e', he⟩ := hex
    rw [startVoting_ok_iff] at he
    exact ⟨he.2.1, he.2.2.1⟩
  · exact ⟨_, (startVoting_ok_iff e caller _).mpr ⟨h, hc.1, hc.2, rfl⟩⟩
  · unfold Election.startVoting; rw [if_pos h, if_neg h1]
  · unfold Election.startVoting
    rw [if_pos h, if_pos h1, if_neg (by omega)]
  · rw [startVoting_ok_iff] at he'
    exact he'.2.2.2

/-- C6 witness, Scenario D: with two candidates added and registration open,
the admin's `startVoting` succeeds even though `registrationEnd = 100` has
not been reached (no clock is consulted). -/
theorem startVoting_spec_witness :
    (run initE [Op.addCandidate 0 "Alice", Op.addCandidate 0 "Bob",
      Op.startRegistration 0]).registrationEnd = 100 ∧
    ∃ e', (run initE [Op.addCandidate 0 "Alice", Op.addCandidate 0 "Bob",
      Op.startRegistration 0]).startVoting 0 = Except.ok e' :=
  ⟨rfl, (startVoting_spec _ 0 rfl).1.mpr ⟨rfl, by decide⟩⟩

/-- C7: `registerVoter` succeeds exactly when the phase is `Registration`,
`now` lies in the closed interval `[registrationStart, registrationEnd]`, and
the caller is not yet registered, failing `InvalidPhase`, `WindowClosed` and
`AlreadyRegistered` respectively; on success it sets the caller's
`isRegistered` flag (touching nothing else), and a set flag is never reset by
any later sequence of calls. -/
theorem registerVoter_spec (e : Election) (caller : Addr) (now : Nat) :
    ((∃ e', e.registerVoter caller now = Except.ok e') ↔
      (e.phase = Phase.Registration ∧ e.registrationStart ≤ now ∧
       now ≤ e.registrationEnd ∧ e.isRegisteredVoter caller = false)) ∧
    (e.phase ≠ Phase.Registration →
      e.registerVoter caller now = Except.error Err.InvalidPhase) ∧
    (e.phase = Phase.Registration →
      ¬(e.registrationStart ≤ now ∧ now ≤ e.registrationEnd) →
      e.registerVoter caller now = Except.error Err.WindowClosed) ∧
    (e.phase = Phase.Registration → e.registrationStart ≤ now →
      now ≤ e.registrationEnd → e.isRegisteredVoter caller = true →
      e.registerVoter caller now = Except.error Err.AlreadyRegistered) ∧
    (∀ e', e.registerVoter caller now = Except.ok e' →
      e'.isRegisteredVoter caller = true ∧
      (∀ a, a ≠ caller → e'.isRegisteredVoter a = e.isRegisteredVoter a) ∧
      e'.hasVoted = e.hasVoted ∧ e'.phase = e.phase ∧
      e'.candidates = e.candidates ∧ e'.candidatesCount = e.candidatesCount) ∧
    (∀ x ops a, x.isRegisteredVoter a = true →
      (run x ops).isRegisteredVoter a = true) := by
  refine ⟨⟨fun hex => ?_, fun hc => ?_⟩, fun h1 => ?_, fun h1 h2 => ?_,
    fun h1 h2 h3 h4 => ?_, fun e' he' => ?_,
    fun x ops a ha => run_registered_mono x ops a ha⟩
  · obtain ⟨e', he⟩ := hex
    rw [registerVoter_ok_iff] at he
    exact ⟨he.1, he.2.1, he.2.2.1, he.2.2.2.1⟩
  · exact ⟨_, (registerVoter_ok_iff e caller now _).mpr
      ⟨hc.1, hc.2.1, hc.2.2.1, hc.2.2.2, rfl⟩⟩
  · unfold Election.registerVoter; rw [if_neg h1]
  · unfold Election.registerVoter; rw [if_pos h1, if_neg h2]
  · unfold Election.registerVoter; rw [if_pos h1, if_pos ⟨h2, h3⟩, if_pos h4]
  · rw [registerVoter_ok_iff] at he'
    obtain ⟨-, -, -, -, rfl⟩ := he'
    exact ⟨by simp [setMapB], fun a ha => by simp [setMapB, ha],
      rfl, rfl, rfl, rfl⟩

/-- C7 witness, Scenario C: voter 1 registering again in the open window gets
`AlreadyRegistered`, and the flag set by the earlier registration is still
set after all of `demoOps`. -/
theorem registerVoter_spec_witness :
    (run initE [Op.addCandidate 0 "Alice", Op.addCandidate 0 "Bob",
      Op.startRegistration 0, Op.registerVoter 1 50]).registerVoter 1 70 =
        Except.error Err.AlreadyRegistered ∧
    demoE.isRegisteredVoter 1 = true :=
  ⟨(registerVoter_spec _ 1 70).2.2.2.1 (by decide) (by decide) (by decide)
     (by decide),
   (registerVoter_spec initE 1 50).2.2.2.2.2
     (run initE [Op.addCandidate 0 "Alice", Op.addCandidate 0 "Bob",
       Op.startRegistration 0, Op.registerVoter 1 50])
     [Op.registerVoter 2 60, Op.startVoting 0, Op.vote 1 1 150] 1 (by decide)⟩

/-- C10: in every reachable election state, a voter whose `hasVoted` flag is
set also has `isRegisteredVoter` set: voting implies prior registration. -/
theorem voted_implies_registered (e : Election) (h : Reachable e) (a : Addr)
    (hv : e.hasVoted a = true) : e.isRegisteredVoter a = true :=
  (reachable_good e h).2.2 a hv

/-- C10 witness: `demoE` is reachable, voter 1 has voted in it, and the
theorem yields that voter 1 is registered. -/
theorem voted_implies_registered_witness :
    demoE.hasVoted 1 = true ∧ demoE.isRegisteredVoter 1 = true :=
  ⟨rfl, voted_implies_registered demoE
    (reachable_run initE demoOps (Reachable.init 0 "t" "d" 100 200 0 initE rfl))
    1 rfl⟩

/-- In phase `Ended` every call reverts. -/
theorem step_ended (e : Election) (he : e.phase = Phase.Ended) (op : Op) :
    ∃ err, step e op = Except.error err := by
  cases op <;>
    simp only [step, Election.addCandidate, Election.startRegistration,
      Election.startVoting, Election.endElection, Election.registerVoter,
      Election.vote] <;>
    split_ifs <;> simp_all

/-- C3: the phase moves only forward along
`Created → Registration → Voting → Ended`: each successful call advances the
phase position by zero or one (never regresses, never skips), and the
position is monotone along every transaction sequence; `startRegistration`
succeeds only from `Created`, `startVoting` only from `Registration`,
`endElection` only from `Voting`, the admin's call failing `InvalidPhase` in
any other phase; each of the three transitions can succeed at most once along
any continuation; and `Ended` is terminal: from it every sequence of calls
reverts and leaves the state unchanged. -/
theorem phase_machine_spec :
    (∀ e op e', step e op = Except.ok e' →
      phaseIdx e.phase ≤ phaseIdx e'.phase ∧
      phaseIdx e'.phase ≤ phaseIdx e.phase + 1) ∧
    (∀ e ops, phaseIdx e.phase ≤ phaseIdx (run e ops).phase) ∧
    (∀ (e : Election) (c : Addr) (e' : Election),
      e.startRegistration c = Except.ok e' →
      e.phase = Phase.Created ∧ e'.phase = Phase.Registration) ∧
    (∀ (e : Election) (c : Addr) (e' : Election),
      e.startVoting c = Except.ok e' →
      e.phase = Phase.Registration ∧ e'.phase = Phase.Voting) ∧
    (∀ (e : Election) (c : Addr) (e' : Election),
      e.endElection c = Except.ok e' →
      e.phase = Phase.Voting ∧ e'.phase = Phase.Ended) ∧
    (∀ (e : Election) (c : Addr), c = e.admin → e.phase ≠ Phase.Created →
      e.startRegistration c = Except.error Err.InvalidPhase) ∧
    (∀ (e : Election) (c : Addr), c = e.admin → e.phase ≠ Phase.Registration →
      e.startVoting c = Except.error Err.InvalidPhase) ∧
    (∀ (e : Election) (c : Addr), c = e.admin → e.phase ≠ Phase.Voting →
      e.endElection c = Except.error Err.InvalidPhase) ∧
    (∀ (e : Election) (c : Addr) (e' : Election) (ops : List Op) (c' : Addr)
      (e'' : Election), e.startRegistration c = Except.ok e' →
      (run e' ops).startRegistration c' ≠ Except.ok e'') ∧
    (∀ (e : Election) (c : Addr) (e' : Election) (ops : List Op) (c' : Addr)
      (e'' : Election), e.startVoting c = Except.ok e' →
      (run e' ops).startVoting c' ≠ Except.ok e'') ∧
    (∀ (e : Election) (c : Addr) (e' : Election) (ops : List Op) (c' : Addr)
      (e'' : Election), e.endElection c = Except.ok e' →
      (run e' ops).endElection c' ≠ Except.ok e'') ∧
    (∀ e ops, e.phase = Phase.Ended → run e ops = e) := by
  have hreg : ∀ (e : Election) (c : Addr) (e' : Election), e.startRegistration c = Except.ok e' →
      e.phase = Phase.Created ∧ e'.phase = Phase.Registration := by
    intro e c e' he
    rw [startRegistration_ok_iff] at he
    obtain ⟨-, h2, rfl⟩ := he
    exact ⟨h2, rfl⟩
  have hvot : ∀ (e : Election) (c : Addr) (e' : Election), e.startVoting c = Except.ok e' →
      e.phase = Phase.Registration ∧ e'.phase = Phase.Voting := by
    intro e c e' he
    rw [startVoting_ok_iff] at he
    obtain ⟨-, h2, -, rfl⟩ := he
    exact ⟨h2, rfl⟩
  have hend : ∀ (e : Election) (c : Addr) (e' : Election), e.endElection c = Except.ok e' →
      e.phase = Phase.Voting ∧ e'.phase = Phase.Ended := by
    intro e c e' he
    rw [endElection_ok_iff] at he
    obtain ⟨-, h2, rfl⟩ := he
    exact ⟨h2, rfl⟩
  refine ⟨fun e op e' h => ⟨(step_mono e op e' h).1, (step_mono e op e' h).2.1⟩,
    fun e ops => run_phase_mono e ops, hreg, hvot, hend,
    fun e c h h1 => ?_, fun e c h h1 => ?_, fun e c h h1 => ?_,
    fun e c e' ops c' e'' he hcontra => ?_,
    fun e c e' ops c' e'' he hcontra => ?_,
    fun e c e' ops c' e'' he hcontra => ?_,
    fun e ops he => ?_⟩
  · unfold Election.startRegistration; rw [if_pos h, if_neg h1]
  · unfold Election.startVoting; rw [if_pos h, if_neg h1]
  · unfold Election.endElection; rw [if_pos h, if_neg h1]
  · have h1 := (hreg e c e' he).2
    have h2 := (hreg (run e' ops) c' e'' hcontra).1
    have h3 := run_phase_mono e' ops
    rw [h1] at h3; rw [h2] at h3
    simp [phaseIdx] at h3
  · have h1 := (hvot e c e' he).2
    have h2 := (hvot (run e' ops) c' e'' hcontra).1
    have h3 := run_phase_mono e' ops
    rw [h1] at h3; rw [h2] at h3
    simp [phaseIdx] at h3
  · have h1 := (hend e c e' he).2
    have h2 := (hend (run e' ops) c' e'' hcontra).1
    have h3 := run_phase_mono e' ops
    rw [h1] at h3; rw [h2] at h3
    simp [phaseIdx] at h3
  · induction ops generalizing e with
    | nil => rfl
    | cons op ops ih =>
      obtain ⟨err, herr⟩ := step_ended e he op
      have : applyOp e op = e := by unfold applyOp; rw [herr]
      simp only [run, this]
      exact ih e he

/-- C3 witness: from `demoE` (phase `Voting`), running `endElection` reaches
`Ended`; the admin's `startRegistration` in `Voting` fails `InvalidPhase`;
and from the `Ended` state any further transactions leave the state
unchanged. -/
theorem phase_machine_spec_witness :
    demoE.phase = Phase.Voting ∧
    demoE.startRegistration 0 = Except.error Err.InvalidPhase ∧
    run (run demoE [Op.endElection 0])
      [Op.startRegistration 0, Op.vote 1 1 150, Op.addCandidate 0 "Carol"] =
      run demoE [Op.endElection 0] :=
  ⟨by decide,
   phase_machine_spec.2.2.2.2.2.1 demoE 0 rfl (by decide),
   phase_machine_spec.2.2.2.2.2.2.2.2.2.2.2 (run demoE [Op.endElection 0])
     [Op.startRegistration 0, Op.vote 1 1 150, Op.addCandidate 0 "Carol"]
     (by decide)⟩

/-- C4 counterexample: `createElection` with empty title, empty description
and both durations zero does not fail — it returns a result, the new id 1,
and the registry is mutated (`electionCount` becomes 1), refuting the claimed
`InvalidInput` rejection at this concrete input. -/
theorem createElection_claim_counterexample :
    createElection initFactory 7 "" "" 0 0 0 ≠ none ∧
    (createElection initFactory 7 "" "" 0 0 0).map
      (fun r => (r.1.electionCount, r.2.1, (r.1.elections 1).isSome,
        r.2.2.title, r.2.2.description)) = some (1, 1, true, "", "") := by
  have hmap : (createElection initFactory 7 "" "" 0 0 0).map
      (fun r => (r.1.electionCount, r.2.1, (r.1.elections 1).isSome,
        r.2.2.title, r.2.2.description)) = some (1, 1, true, "", "") := rfl
  refine ⟨fun hn => ?_, hmap⟩
  rw [hn] at hmap
  simp at hmap

/-- C4 amended: `createElection` performs no validation of the title, the
description or the durations (durations are `uint256`, so never negative):
whenever the constructor's window additions do not overflow — in particular
for empty texts and zero durations — it succeeds, increments `electionCount`
and stores the new election under the new id. -/
theorem createElection_amended (f : Factory) (sender : Addr) (t d : String)
    (rd vd now : Nat) (h : now + rd + vd ≤ UINT_MAX) :
    ∃ e, createElection f sender t d rd vd now =
      some ({ electionCount := f.electionCount + 1
              elections := fun i =>
                if i = f.electionCount + 1 then some e else f.elections i },
            f.electionCount + 1, e) := by
  unfold createElection mkElection
  rw [if_pos ⟨by omega, h⟩]
  exact ⟨_, rfl⟩

/-- C4 witness: the amended theorem applied to the empty-input creation,
showing it succeeds and the count becomes 1. -/
theorem createElection_amended_witness :
    0 + 0 + 0 ≤ UINT_MAX ∧
    ∃ e, createElection initFactory 7 "" "" 0 0 0 =
      some ({ electionCount := 1
              elections := fun i => if i = 1 then some e else none }, 1, e) :=
  ⟨by decide, createElection_amended initFactory 7 "" "" 0 0 0 (by decide)⟩

/-- C9 counterexample: on the reachable state `demoE` (which has exactly the
candidate ids 1 and 2), `getCandidate 5` does not fail `InvalidCandidate`: it
returns the zero candidate record, refuting the claim at this concrete input. -/
theorem getCandidate_claim_counterexample :
    Reachable demoE ∧ demoE.candidatesCount = 2 ∧
    demoE.getCandidate 5 = Except.ok defaultCandidate ∧
    demoE.getCandidate 5 ≠ Except.error Err.InvalidCandidate := by
  refine ⟨reachable_run initE demoOps
    (Reachable.init 0 "t" "d" 100 200 0 initE rfl), by decide, rfl, ?_⟩
  intro hcontra
  have : Except.ok defaultCandidate =
      (Except.error Err.InvalidCandidate : Except Err Candidate) := hcontra
  simp at this

/-- C9 amended: `getCandidate` never fails; for an id outside
`[1, candidatesCount]` of a reachable election it returns the zero candidate
record `{id = 0, name = "", voteCount = 0}` (the Solidity mapping default)
instead of an `InvalidCandidate` failure. -/
theorem getCandidate_amended (e : Election) (h : Reachable e) (id : Nat)
    (hid : id = 0 ∨ e.candidatesCount < id) :
    e.getCandidate id = Except.ok defaultCandidate := by
  unfold Election.getCandidate
  rw [(reachable_good e h).2.1 id hid]

/-- C9 witness: the amended theorem applied to `demoE` and id 9. -/
theorem getCandidate_amended_witness :
    (9 = 0 ∨ demoE.candidatesCount < 9) ∧
    demoE.getCandidate 9 = Except.ok defaultCandidate :=
  ⟨by decide, getCandidate_amended demoE
    (reachable_run initE demoOps (Reachable.init 0 "t" "d" 100 200 0 initE rfl))
    9 (by decide)⟩

/-- C8: in every reachable state the candidate ids are exactly
`1..candidatesCount` with no gaps (slot `i` stores id `i`); a successful
`addCandidate` assigns id `candidatesCount + 1` with `voteCount = 0` and
leaves every other slot unchanged (ids in call order); and `getAllCandidates`
is the full snapshot `candidates[1], …, candidates[count]`, whose ids are the
ascending list `[1, …, count]`. -/
theorem candidate_ids_spec (e : Election) (h : Reachable e) :
    (∀ i, 1 ≤ i → i ≤ e.candidatesCount → (e.candidates i).id = i) ∧
    (∀ (c : Addr) (n : String) (e' : Election),
      e.addCandidate c n = Except.ok e' →
      e'.candidatesCount = e.candidatesCount + 1 ∧
      e'.candidates (e.candidatesCount + 1) = ⟨e.candidatesCount + 1, n, 0⟩ ∧
      (∀ j, j ≠ e.candidatesCount + 1 → e'.candidates j = e.candidates j)) ∧
    e.getAllCandidates =
      (List.range e.candidatesCount).map (fun k => e.candidates (k + 1)) ∧
    e.getAllCandidates.length = e.candidatesCount ∧
    e.getAllCandidates.map Candidate.id = List.range' 1 e.candidatesCount := by
  have hg := (reachable_good e h).1
  refine ⟨hg, fun c n e' hok => ?_, rfl, by simp [Election.getAllCandidates], ?_⟩
  · rw [addCandidate_ok_iff] at hok
    obtain ⟨-, -, -, rfl⟩ := hok
    exact ⟨rfl, by simp [setMapC], fun j hj => by simp [setMapC, hj]⟩
  · unfold Election.getAllCandidates
    rw [List.map_map, List.range'_eq_map_range]
    apply List.map_congr_left
    intro k hk
    rw [List.mem_range] at hk
    have := hg (k + 1) (Nat.succ_le_succ (Nat.zero_le k)) (Nat.succ_le_of_lt hk)
    simpa [Nat.add_comm] using this

/-- C8 witness: in `demoE` the ids of the snapshot are `[1, 2]` and the
slots hold ids `1` and `2` with names "Alice" and "Bob". -/
theorem candidate_ids_spec_witness :
    demoE.getAllCandidates.map Candidate.id = List.range' 1 demoE.candidatesCount ∧
    demoE.candidatesCount = 2 ∧
    demoE.getAllCandidates.map Candidate.name = ["Alice", "Bob"] :=
  ⟨(candidate_ids_spec demoE
      (reachable_run initE demoOps
        (Reachable.init 0 "t" "d" 100 200 0 initE rfl))).2.2.2.2,
   by decide, by decide⟩

/-! ### Trace-level tally bookkeeping (for the vote-count invariants) -/

/-- The `(caller, candidateId)` event a transaction records when it succeeds:
a singleton for a `vote` call, nothing for the other calls. -/
def voteEvent : Op → List (Addr × Nat)
  | Op.vote c cid _ => [(c, cid)]
  | _ => []

/-- Unfolding `voteLog` over a successful head transaction. -/
theorem voteLog_cons_ok (e : Election) (op : Op) (e1 : Election) (ops : List Op)
    (hs : step e op = Except.ok e1) :
    voteLog e (op :: ops) = voteEvent op ++ voteLog e1 ops := by
  simp only [voteLog]
  rw [hs]
  cases op <;> rfl

/-- Unfolding `voteLog` over a reverting head transaction. -/
theorem voteLog_cons_err (e : Election) (op : Op) (err : Err) (ops : List Op)
    (hs : step e op = Except.error err) :
    voteLog e (op :: ops) = voteLog e ops := by
  simp only [voteLog]
  rw [hs]

/-- A successful transaction is applied as its result state. -/
theorem applyOp_ok (e : Election) (op : Op) (e1 : Election)
    (hs : step e op = Except.ok e1) : applyOp e op = e1 := by
  unfold applyOp
  rw [hs]

/-- A reverting transaction leaves the state unchanged. -/
theorem applyOp_err (e : Election) (op : Op) (err : Err)
    (hs : step e op = Except.error err) : applyOp e op = e := by
  unfold applyOp
  rw [hs]

/-- Tally bookkeeping along a trace: each slot's final `voteCount` is its
initial one plus the number of successful votes that targeted that id. -/
theorem voteLog_count (ops : List Op) :
    ∀ e : Election, Reachable e → ∀ c,
      ((run e ops).candidates c).voteCount =
        (e.candidates c).voteCount +
          ((voteLog e ops).filter (fun p => p.2 = c)).length := by
  induction ops with
  | nil => intro e hr c; simp [run, voteLog]
  | cons op ops ih =>
    intro e hr c
    rw [show run e (op :: ops) = run (applyOp e op) ops from rfl]
    cases hs : step e op with
    | error err =>
      rw [applyOp_err e op err hs, voteLog_cons_err e op err ops hs]
      exact ih e hr c
    | ok e1 =>
      rw [applyOp_ok e op e1 hs, voteLog_cons_ok e op e1 ops hs]
      have hr1 : Reachable e1 := Reachable.next e op e1 hr hs
      rw [ih e1 hr1 c]
      cases op with
      | vote caller cid tm =>
        simp only [step] at hs
        rw [vote_ok_iff] at hs
        obtain ⟨-, -, -, -, -, -, -, rfl⟩ := hs
        by_cases hc : cid = c
        · subst hc
          simp [setMapC, List.filter_cons, voteEvent]
          omega
        · have hc' : ¬c = cid := fun hh => hc hh.symm
          simp [setMapC, List.filter_cons, voteEvent, hc, hc']
      | addCandidate caller n =>
        simp only [step] at hs
        rw [addCandidate_ok_iff] at hs
        obtain ⟨-, -, -, rfl⟩ := hs
        by_cases hc : c = e.candidatesCount + 1
        · subst hc
          have hz : e.candidates (e.candidatesCount + 1) = defaultCandidate :=
            (reachable_good e hr).2.1 _ (Or.inr (Nat.lt_succ_self _))
          simp [setMapC, hz, defaultCandidate, voteEvent]
        · simp [setMapC, hc, voteEvent]
      | startRegistration caller =>
        simp only [step] at hs
        rw [startRegistration_ok_iff] at hs
        obtain ⟨-, -, rfl⟩ := hs
        simp [voteEvent]
      | startVoting caller =>
        simp only [step] at hs
        rw [startVoting_ok_iff] at hs
        obtain ⟨-, -, -, rfl⟩ := hs
        simp [voteEvent]
      | endElection caller =>
        simp only [step] at hs
        rw [endElection_ok_iff] at hs
        obtain ⟨-, -, rfl⟩ := hs
        simp [voteEvent]
      | registerVoter caller tm =>
        simp only [step] at hs
        rw [registerVoter_ok_iff] at hs
        obtain ⟨-, -, -, -, rfl⟩ := hs
        simp [voteEvent]

/-- A voter whose flag is already set never appears in the log of successful
votes of any continuation. -/
theorem voteLog_not_voted (ops : List Op) :
    ∀ e : Election, ∀ a : Addr, e.hasVoted a = true →
      a ∉ (voteLog e ops).map Prod.fst := by
  induction ops with
  | nil => intro e a ha; simp [voteLog]
  | cons op ops ih =>
    intro e a ha
    cases hs : step e op with
    | error err =>
      rw [voteLog_cons_err e op err ops hs]
      exact ih e a ha
    | ok e1 =>
      have ha1 : e1.hasVoted a = true := (step_mono e op e1 hs).2.2.2.2 a ha
      rw [voteLog_cons_ok e op e1 ops hs]
      cases op with
      | vote caller cid tm =>
        simp only [voteEvent, List.cons_append, List.nil_append, List.map_cons]
        intro hmem
        rcases List.mem_cons.mp hmem with heq | hm
        · simp only [step] at hs
          rw [vote_ok_iff] at hs
          rw [heq] at ha
          rw [hs.2.2.2.2.1] at ha
          cases ha
        · exact ih e1 a ha1 hm
      | addCandidate caller n => simpa [voteEvent] using ih e1 a ha1
      | startRegistration caller => simpa [voteEvent] using ih e1 a ha1
      | startVoting caller => simpa [voteEvent] using ih e1 a ha1
      | endElection caller => simpa [voteEvent] using ih e1 a ha1
      | registerVoter caller tm => simpa [voteEvent] using ih e1 a ha1

/-- The voters of the successful votes of a trace are pairwise distinct. -/
theorem voteLog_nodup (ops : List Op) :
    ∀ e : Election, ((voteLog e ops).map Prod.fst).Nodup := by
  induction ops with
  | nil => intro e; simp [voteLog]
  | cons op ops ih =>
    intro e
    cases hs : step e op with
    | error err =>
      rw [voteLog_cons_err e op err ops hs]
      exact ih e
    | ok e1 =>
      rw [voteLog_cons_ok e op e1 ops hs]
      cases op with
      | vote caller cid tm =>
        simp only [voteEvent, List.cons_append, List.nil_append, List.map_cons]
        rw [List.nodup_cons]
        have hv1 : e1.hasVoted caller = true := by
          simp only [step] at hs
          rw [vote_ok_iff] at hs
          obtain ⟨-, -, -, -, -, -, -, rfl⟩ := hs
          simp [setMapB]
        exact ⟨voteLog_not_voted ops e1 caller hv1, ih e1⟩
      | addCandidate caller n => simpa [voteEvent] using ih e1
      | startRegistration caller => simpa [voteEvent] using ih e1
      | startVoting caller => simpa [voteEvent] using ih e1
      | endElection caller => simpa [voteEvent] using ih e1
      | registerVoter caller tm => simpa [voteEvent] using ih e1

/-- Every successful vote of a trace targets an id in `[1, candidatesCount]`
of the final state. -/
theorem voteLog_targets (ops : List Op) :
    ∀ e : Election, ∀ p ∈ voteLog e ops,
      1 ≤ p.2 ∧ p.2 ≤ (run e ops).candidatesCount := by
  induction ops with
  | nil => intro e p hp; simp [voteLog] at hp
  | cons op ops ih =>
    intro e p hp
    rw [show run e (op :: ops) = run (applyOp e op) ops from rfl]
    cases hs : step e op with
    | error err =>
      rw [voteLog_cons_err e op err ops hs] at hp
      rw [applyOp_err e op err hs]
      exact ih e p hp
    | ok e1 =>
      rw [voteLog_cons_ok e op e1 ops hs] at hp
      rw [applyOp_ok e op e1 hs]
      cases op with
      | vote caller cid tm =>
        simp only [voteEvent, List.cons_append, List.nil_append] at hp
        rcases List.mem_cons.mp hp with heq | hm
        · subst heq
          simp only [step] at hs
          rw [vote_ok_iff] at hs
          obtain ⟨-, -, -, -, -, hc1, hc2, he1⟩ := hs
          have hcnt : e1.candidatesCount = e.candidatesCount := by rw [he1]
          refine ⟨hc1, ?_⟩
          have hmono := run_count_mono e1 ops
          rw [hcnt] at hmono
          exact le_trans hc2 hmono
        · exact ih e1 p hm
      | addCandidate caller n => exact ih e1 p (by simpa [voteEvent] using hp)
      | startRegistration caller => exact ih e1 p (by simpa [voteEvent] using hp)
      | startVoting caller => exact ih e1 p (by simpa [voteEvent] using hp)
      | endElection caller => exact ih e1 p (by simpa [voteEvent] using hp)
      | registerVoter caller tm => exact ih e1 p (by simpa [voteEvent] using hp)

/-- Counting: if every entry of a list targets an id in `[1, N]`, the
per-id filter lengths over `[1, N]` sum to the list's length. -/
theorem filter_length_sum (N : Nat) (l : List (Addr × Nat))
    (h : ∀ p ∈ l, 1 ≤ p.2 ∧ p.2 ≤ N) :
    ∑ c ∈ Finset.Icc 1 N, (l.filter (fun p => p.2 = c)).length = l.length := by
  induction l with
  | nil => simp
  | cons p l ih =>
    have hp := h p (List.mem_cons_self p l)
    have hl : ∀ q ∈ l, 1 ≤ q.2 ∧ q.2 ≤ N :=
      fun q hq => h q (List.mem_cons_of_mem p hq)
    have hsplit : ∀ c, ((p :: l).filter (fun q => q.2 = c)).length =
        (if p.2 = c then 1 else 0) + (l.filter (fun q => q.2 = c)).length := by
      intro c
      by_cases hc : p.2 = c
      · simp [List.filter_cons, hc]
        omega
      · simp [List.filter_cons, hc]
    simp only [hsplit]
    rw [Finset.sum_add_distrib, ih hl, Finset.sum_ite_eq,
      if_pos (Finset.mem_Icc.mpr ⟨hp.1, hp.2⟩)]
    simp [Nat.add_comm]

/-- The snapshot's tallies sum to the interval sum of the slot tallies. -/
theorem getAll_voteCount_sum (e : Election) :
    (e.getAllCandidates.map Candidate.voteCount).sum =
      ∑ c ∈ Finset.Icc 1 e.candidatesCount, (e.candidates c).voteCount := by
  unfold Election.getAllCandidates
  have key : ∀ n, (((List.range n).map (fun i => e.candidates (i + 1))).map
      Candidate.voteCount).sum = ∑ c ∈ Finset.Icc 1 n, (e.candidates c).voteCount := by
    intro n
    induction n with
    | zero => simp
    | succ n ih =>
      rw [List.range_succ, List.map_append, List.map_append, List.sum_append,
        ih, Finset.sum_Icc_succ_top (Nat.succ_le_succ (Nat.zero_le n))]
      simp
  exact key e.candidatesCount

/-- C2 counterexample: after `demoOps` followed by `endElection`, voter 1 has
successfully voted once (the log is `[(1, 1)]` and the flag is set), yet
their second `vote` call fails `InvalidPhase` — not `AlreadyVoted` as the
claim states. -/
theorem tally_claim_counterexample :
    voteLog initE (demoOps ++ [Op.endElection 0]) = [(1, 1)] ∧
    (run initE (demoOps ++ [Op.endElection 0])).hasVoted 1 = true ∧
    step (run initE (demoOps ++ [Op.endElection 0])) (Op.vote 1 1 150) =
      Except.error Err.InvalidPhase :=
  ⟨rfl, rfl, rfl⟩

/-- C2 amended: in every state reachable from a constructor call, each
candidate slot's `voteCount` equals the number of successful `vote` calls
that targeted that id; those calls came from pairwise-distinct voters (so
the tally also counts distinct voters); the tallies summed over the full
candidate snapshot equal the total number of successful votes; and a voter
whose `hasVoted` flag is set can never vote again — the second call never
succeeds, leaves the state (hence every tally) unchanged, and fails
`AlreadyVoted` whenever it passes the phase, window and registration checks
(otherwise the earlier check reports its own error). -/
theorem tally_spec (a : Addr) (t d : String) (rd vd now : Nat) (e0 : Election)
    (h0 : mkElection a t d rd vd now = some e0) (ops : List Op) :
    (∀ c, ((run e0 ops).candidates c).voteCount =
      ((voteLog e0 ops).filter (fun p => p.2 = c)).length) ∧
    ((voteLog e0 ops).map Prod.fst).Nodup ∧
    ((run e0 ops).getAllCandidates.map Candidate.voteCount).sum =
      (voteLog e0 ops).length ∧
    (∀ (e : Election) (caller : Addr) (cid tm : Nat) (e' : Election),
      e.hasVoted caller = true → e.vote caller cid tm ≠ Except.ok e') ∧
    (∀ (e : Election) (caller : Addr) (cid tm : Nat),
      e.hasVoted caller = true → applyOp e (Op.vote caller cid tm) = e) ∧
    (∀ (e : Election) (caller : Addr) (cid tm : Nat),
      e.phase = Phase.Voting → e.votingStart ≤ tm → tm ≤ e.votingEnd →
      e.isRegisteredVoter caller = true → e.hasVoted caller = true →
      e.vote caller cid tm = Except.error Err.AlreadyVoted) := by
  have hr0 : Reachable e0 := Reachable.init a t d rd vd now e0 h0
  have hz : ∀ c, (e0.candidates c).voteCount = 0 := by
    unfold mkElection at h0
    split_ifs at h0
    cases h0
    intro c
    rfl
  refine ⟨fun c => ?_, voteLog_nodup ops e0, ?_, ?_, ?_, ?_⟩
  · rw [voteLog_count ops e0 hr0 c, hz c, Nat.zero_add]
  · rw [getAll_voteCount_sum,
      Finset.sum_congr rfl
        (fun c _ => by rw [voteLog_count ops e0 hr0 c, hz c, Nat.zero_add])]
    exact filter_length_sum _ _ (voteLog_targets ops e0)
  · intro e caller cid tm e' ha hok
    rw [vote_ok_iff] at hok
    rw [hok.2.2.2.2.1] at ha
    cases ha
  · intro e caller cid tm ha
    cases hv : e.vote caller cid tm with
    | ok e' =>
      rw [vote_ok_iff] at hv
      rw [hv.2.2.2.2.1] at ha
      cases ha
    | error err => exact applyOp_err e (Op.vote caller cid tm) err (by simpa [step] using hv)
  · intro e caller cid tm h1 h2 h3 h4 h5
    unfold Election.vote
    rw [if_pos h1, if_pos ⟨h2, h3⟩, if_pos h4, if_pos h5]

/-- C2 witness: the amended theorem applied to the concrete trace `demoOps`
from the concrete initial state, where the log has exactly one vote. -/
theorem tally_spec_witness :
    ((run initE demoOps).candidates 1).voteCount =
      ((voteLog initE demoOps).filter (fun p => p.2 = 1)).length ∧
    ((run initE demoOps).getAllCandidates.map Candidate.voteCount).sum =
      (voteLog initE demoOps).length ∧
    (voteLog initE demoOps).length = 1 :=
  ⟨(tally_spec 0 "t" "d" 100 200 0 initE rfl demoOps).1 1,
   (tally_spec 0 "t" "d" 100 200 0 initE rfl demoOps).2.2.1,
   by decide⟩

end EVoting
